import Mathlib

/-!
Verification of the affichage multi-window browser shell: geometry
normalization, layout persistence and application, the background refresh
engine, and the view store, shallowly embedded from the Python sources
(`app/controllers/application_controller.py`, `app/views/browser_window.py`,
`app/core/view_manager.py`).
-/

namespace Affichage

/-- A pixel rectangle, as held by `QRect` / `window.geometry()`. -/
structure PixelRect where
  x : Int
  y : Int
  w : Int
  h : Int
deriving DecidableEq, Repr

/-- A fractional (screen-relative) rectangle, as stored in layouts/views JSON. -/
structure FracRect where
  x : ℚ
  y : ℚ
  w : ℚ
  h : ℚ
deriving DecidableEq, Repr

/-- Python `int(...)` applied to a (real) number: truncation toward zero
(on a reduced fraction this is T-division of numerator by denominator). -/
def pyInt (q : ℚ) : Int := Int.tdiv q.num (q.den : Int)

/-- The width/height clamp `max(0.05, min(2.0, v))` used by the save paths
(`save_current_layout`, `_save_as_view`, `_save_as_layout_from_view_dialog`). -/
def clampWH (q : ℚ) : ℚ := max (0.05 : ℚ) (min 2 q)

/-- Normalization performed by the save paths: x/y are divided by the screen
dimension with no clamping; width/height are divided and clamped. -/
def normalizeRect (r : PixelRect) (sw sh : Int) : FracRect :=
  { x := (r.x : ℚ) / (sw : ℚ)
    y := (r.y : ℚ) / (sh : ℚ)
    w := clampWH ((r.w : ℚ) / (sw : ℚ))
    h := clampWH ((r.h : ℚ) / (sh : ℚ)) }

/-- Denormalization performed by `apply_layout`:
`int(geo["x"] * screen_w)` and so on for each component. -/
def denormalizeRect (f : FracRect) (sw sh : Int) : PixelRect :=
  { x := pyInt (f.x * (sw : ℚ))
    y := pyInt (f.y * (sh : ℚ))
    w := pyInt (f.w * (sw : ℚ))
    h := pyInt (f.h * (sh : ℚ)) }

/-- Runtime state of one registered browser window: visibility plus geometry. -/
structure Window where
  visible : Bool
  rect : PixelRect
deriving DecidableEq, Repr

/-- One slot of a layout: an id and a fractional rectangle. -/
structure Slot where
  id : String
  geometry : FracRect
deriving DecidableEq, Repr

/-- One named layout: description plus an ordered slot list. -/
structure Layout where
  description : String
  slots : List Slot
deriving DecidableEq, Repr

/-- Lookup in an association list, mirroring Python `dict.get`. -/
def alookup {α : Type} (l : List (String × α)) (k : String) : Option α :=
  match l with
  | [] => none
  | (k2, v) :: t => if k2 = k then some v else alookup t k

/-- Python `dict` assignment `d[k] = v` on an association list: replace the
existing entry in place, otherwise append. -/
def dset {α : Type} (l : List (String × α)) (k : String) (v : α) :
    List (String × α) :=
  if k ∈ l.map Prod.fst then l.map (fun e => if e.1 = k then (k, v) else e)
  else l ++ [(k, v)]

/-- Hiding one registry entry (`window.hide()`). -/
def hideAllE (p : String × Window) : String × Window :=
  (p.1, { p.2 with visible := false })

/-- First phase of `apply_layout`: `for window in self._windows.values(): window.hide()`. -/
def hideAll (ws : List (String × Window)) : List (String × Window) :=
  ws.map hideAllE

/-- Effect of one slot iteration of `apply_layout` on a single registry entry:
if the slot's assignment names this entry's (truthy, registered) window id,
the window gets the denormalized geometry and is shown. -/
def applySlotE (keys : List String) (asg : List (String × String))
    (sw sh : Int) (p : String × Window) (s : Slot) : String × Window :=
  match alookup asg s.id with
  | some pid =>
      if pid ≠ "" ∧ pid ∈ keys then
        if p.1 = pid then (p.1, ⟨true, denormalizeRect s.geometry sw sh⟩) else p
      else p
  | none => p

/-- One slot iteration of `apply_layout` over the whole registry. -/
def applySlot (keys : List String) (asg : List (String × String))
    (sw sh : Int) (ws : List (String × Window)) (s : Slot) :
    List (String × Window) :=
  match alookup asg s.id with
  | some pid =>
      if pid ≠ "" ∧ pid ∈ keys then
        ws.map fun p =>
          if p.1 = pid then (p.1, ⟨true, denormalizeRect s.geometry sw sh⟩) else p
      else ws
  | none => ws

/-- Final-phase treatment of one registry entry: hidden unless its id is
among the assignment's values (`assigned_pages`). -/
def hideUnassignedE (pages : List String) (p : String × Window) : String × Window :=
  if p.1 ∈ pages then p else (p.1, { p.2 with visible := false })

/-- Final phase of `apply_layout`: hide every registry entry whose id is not
among the assignment's values (`assigned_pages`). -/
def hideUnassigned (pages : List String) (ws : List (String × Window)) :
    List (String × Window) :=
  ws.map (hideUnassignedE pages)

/-- Model of `ApplicationController.apply_layout`: look the layout up (bailing out when
absent), hide all windows, walk the slot list showing assigned live windows at
their denormalized geometry, then hide windows not among the assigned pages. -/
def apply_layout (layouts : List (String × Layout)) (ws : List (String × Window))
    (asg : List (String × String)) (name : String) (sw sh : Int) :
    List (String × Window) :=
  match alookup layouts name with
  | none => ws
  | some lay =>
      let keys := ws.map Prod.fst
      let ws1 := hideAll ws
      let ws2 := lay.slots.foldl (applySlot keys asg sw sh) ws1
      hideUnassigned (asg.map Prod.snd) ws2

/-! Background refresh engine (`BrowserWindow`), modelled as a step function
over the callback/timer events of one refresh cycle, starting from the state
right after `_start_background_load`. -/

/-- State of one background refresh cycle. `retryP`, `settleP`, `paintP` and
`cleanupP` count pending `QTimer.singleShot` callbacks (the 1s re-check of
`_on_background_load_finished`, the 2s delay before `_check_and_perform_swap`,
the 1s delay before `_perform_smooth_swap`, and the 50ms `_cleanup_preloader`).
`reached` records whether a progress event of at least 100 was ever seen. -/
structure RState where
  progress : Nat
  bgAlive : Bool
  retryP : Nat
  settleP : Nat
  paintP : Nat
  cleanupP : Nat
  swaps : Nat
  visiblePage : Nat
  bgPage : Nat
  reached : Bool
deriving DecidableEq, Repr

/-- Events delivered to the refresh engine: load progress, load finished, and
the four timer callbacks. -/
inductive Ev where
  | progressEv (p : Nat)
  | finishedEv (ok : Bool)
  | retryEv
  | settleEv
  | paintEv
  | cleanupEv
deriving DecidableEq, Repr

/-- Model of `BrowserWindow._on_background_load_finished`: bail out on failure or if no
background surface exists; re-arm a 1s re-check if tracked progress is short of
100; otherwise arm the 2s settle delay. -/
def onFinished (s : RState) (ok : Bool) : RState :=
  if ok = false ∨ s.bgAlive = false then s
  else if s.progress < 100 then { s with retryP := s.retryP + 1 }
  else { s with settleP := s.settleP + 1 }

/-- One event step of the refresh engine. -/
def stepEv (s : RState) (e : Ev) : RState :=
  match e with
  | .progressEv p => { s with progress := p, reached := s.reached || decide (100 ≤ p) }
  | .finishedEv ok => onFinished s ok
  | .retryEv => if 0 < s.retryP then onFinished { s with retryP := s.retryP - 1 } true else s
  | .settleEv =>
      if 0 < s.settleP then
        let s2 := { s with settleP := s.settleP - 1 }
        if s2.bgAlive then { s2 with paintP := s2.paintP + 1 } else s2
      else s
  | .paintEv =>
      if 0 < s.paintP then
        let s2 := { s with paintP := s.paintP - 1 }
        if s2.bgAlive then
          { s2 with swaps := s2.swaps + 1, visiblePage := s2.bgPage,
                    cleanupP := s2.cleanupP + 1 }
        else s2
      else s
  | .cleanupEv =>
      if 0 < s.cleanupP then { s with cleanupP := s.cleanupP - 1, bgAlive := false } else s

/-- State just after `_start_background_load`: background surface alive,
progress reset to 0, no pending timers, nothing swapped yet. -/
def initRState : RState :=
  { progress := 0, bgAlive := true, retryP := 0, settleP := 0, paintP := 0,
    cleanupP := 0, swaps := 0, visiblePage := 0, bgPage := 1, reached := false }

/-- Run an event sequence from the initial refresh-cycle state. -/
def runEvents (tr : List Ev) : RState := tr.foldl stepEv initRState

/-- The spec's scenario: load finishes at 80%, progress later reaches 100,
the re-check timer fires, then the settle, paint and cleanup timers. -/
def refreshTrace : List Ev :=
  [.progressEv 80, .finishedEv true, .progressEv 100, .retryEv, .settleEv,
   .paintEv, .cleanupEv]

/-- A sequence in which progress regresses below 100 after the finish check
has already passed: the swap then fires while tracked progress is 80. -/
def regressTrace : List Ev :=
  [.progressEv 100, .finishedEv true, .progressEv 80, .settleEv, .paintEv]

/-- Inductive invariant of the refresh engine: an armed settle or paint timer,
or a performed swap, implies that a load-progress report of at least 100 has
been observed at some point of the cycle. -/
def RInv (s : RState) : Prop :=
  (100 ≤ s.progress → s.reached = true) ∧
  (0 < s.settleP → s.reached = true) ∧
  (0 < s.paintP → s.reached = true) ∧
  (0 < s.swaps → s.reached = true)

/-! View store (`ViewManager`). Views are Python dicts; we model a view record
as an association list of keys to JSON-ish values. -/

/-- One window definition inside a view. -/
structure WinDef where
  id : String
  position : FracRect
  zoom : Option Int
deriving DecidableEq, Repr

/-- JSON-ish values stored under a view record's keys. -/
inductive Val where
  | str (s : String)
  | winDefs (l : List WinDef)
  | num (n : Int)
deriving DecidableEq, Repr

/-- A view record: a dict from keys to values. -/
abbrev ViewRec : Type := List (String × Val)

/-- The view store: view id to view record. -/
abbrev ViewStoreT : Type := List (String × ViewRec)

/-- The layout store: layout name to layout. -/
abbrev LayoutStoreT : Type := List (String × Layout)

/-- One entry of the window-configuration list. -/
structure WindowConfig where
  id : String
  url : String
  geometry : PixelRect
deriving DecidableEq, Repr

/-- The keys `ViewManager.update_view` is willing to modify. -/
def allowedKeys : List String := ["name", "description", "layout", "windows"]

/-- Read one key of one view: `self.views.get(view_id, {}).get(k)`. -/
def viewGet (views : ViewStoreT) (view_id k : String) : Option Val :=
  (alookup views view_id).bind fun v => alookup v k

/-- The keyword-argument loop of `update_view`: set each allowed key, ignore
every other key. -/
def applyKwargs (v : ViewRec) (kwargs : List (String × Val)) : ViewRec :=
  kwargs.foldl (fun acc kv => if kv.1 ∈ allowedKeys then dset acc kv.1 kv.2 else acc) v

/-- Model of `ViewManager.create_view`: refuse (returning `False`, writing nothing) when
the id exists; otherwise insert the record and write the file. The result is
(store, returned flag, wrote file). -/
def create_view (views : ViewStoreT) (view_id nm desc layout : String)
    (ws : List WinDef) : ViewStoreT × Bool × Bool :=
  if view_id ∈ views.map Prod.fst then (views, false, false)
  else
    (views ++ [(view_id,
      [("name", Val.str nm), ("description", Val.str desc),
       ("layout", Val.str layout), ("windows", Val.winDefs ws)])], true, true)

/-- Model of `ViewManager.update_view`: refuse when the id is absent; otherwise apply
the keyword arguments to that record (allowed keys only) and write the file. -/
def update_view (views : ViewStoreT) (view_id : String)
    (kwargs : List (String × Val)) : ViewStoreT × Bool × Bool :=
  if view_id ∈ views.map Prod.fst then
    (views.map (fun e => if e.1 = view_id then (e.1, applyKwargs e.2 kwargs) else e),
     true, true)
  else (views, false, false)

/-- The three built-in views written by `ViewManager._create_default_views`. -/
def defaultViews : ViewStoreT :=
  [("dashboard",
    [("name", Val.str "Dashboard View"),
     ("description", Val.str "Main dashboard with Power BI and SharePoint"),
     ("layout", Val.str "default"),
     ("windows", Val.winDefs
       [⟨"powerbi_report", ⟨0, 0, 0.6, 0.7⟩, none⟩,
        ⟨"sharepoint_document", ⟨0, 0.7, 1, 0.3⟩, none⟩])]),
   ("monitoring",
    [("name", Val.str "Process Monitoring"),
     ("description", Val.str "PI Vision process monitoring view"),
     ("layout", Val.str "monitoring"),
     ("windows", Val.winDefs [⟨"google_search", ⟨0, 0, 1, 1⟩, none⟩])]),
   ("overview",
    [("name", Val.str "Complete Overview"),
     ("description", Val.str "All windows visible for comprehensive monitoring"),
     ("layout", Val.str "overview"),
     ("windows", Val.winDefs
       [⟨"powerbi_report", ⟨0.5, 0, 0.5, 0.6⟩, none⟩,
        ⟨"google_search", ⟨0, 0, 0.5, 0.6⟩, none⟩,
        ⟨"sharepoint_document", ⟨0, 0.6, 1, 0.4⟩, none⟩])])]

/-- Model of `ViewManager._load_views`: use the parsed file when it exists and parses;
on a missing file or any load error fall back to `_create_default_views`,
which also writes the defaults back to disk. Result: (store, wrote file). -/
def load_views (fileExists : Bool) (parsed : Option ViewStoreT) :
    ViewStoreT × Bool :=
  if fileExists then
    match parsed with
    | some v => (v, false)
    | none => (defaultViews, true)
  else (defaultViews, true)

/-- Model of `ApplicationController._load_configs`: both files are read inside one
`try`; any `FileNotFoundError`/`JSONDecodeError` resets both stores to empty. -/
def load_configs (windowsParsed : Option (List WindowConfig))
    (layoutsParsed : Option LayoutStoreT) : List WindowConfig × LayoutStoreT :=
  match windowsParsed, layoutsParsed with
  | some w, some l => (w, l)
  | some _, none => ([], [])
  | none, some _ => ([], [])
  | none, none => ([], [])

/-- Outcomes surfaced to the operator by the save paths. -/
inductive SaveOutcome where
  | noWindows
  | cancelled
  | overwriteDeclined
  | saved
  | saveError
deriving DecidableEq, Repr

/-- Which record the save-view dialog asked for. -/
inductive SaveKind where
  | view
  | layout
deriving DecidableEq, Repr

/-- Model of `ApplicationController.save_current_layout`, with the dialog and
message-box interactions (accepted, entered name/description, overwrite
confirmation) and the success of the file write passed in as parameters.
The in-memory store is updated before the write is attempted, exactly as in
the source, so a failed write leaves the new layout in the store. -/
def save_current_layout (windows : List (String × Window))
    (layouts : LayoutStoreT) (dialogAccepted : Bool)
    (layout_name layout_description : String) (overwriteYes : Bool)
    (sw sh : Int) (writeOk : Bool) : LayoutStoreT × SaveOutcome :=
  let vis := windows.filter fun p => p.2.visible
  if vis = [] then (layouts, SaveOutcome.noWindows)
  else if dialogAccepted = false then (layouts, SaveOutcome.cancelled)
  else if layout_name ∈ layouts.map Prod.fst ∧ overwriteYes = false then
    (layouts, SaveOutcome.overwriteDeclined)
  else
    let desc2 := if layout_description = "" then "Custom layout: " ++ layout_name
                 else layout_description
    let slots := vis.map fun p =>
      Slot.mk ("Slot for " ++ p.1) (normalizeRect p.2.rect sw sh)
    let layouts2 := dset layouts layout_name { description := desc2, slots := slots }
    (layouts2, if writeOk then SaveOutcome.saved else SaveOutcome.saveError)

/-- Model of `ApplicationController.save_current_view`: reject before the dialog when no
window is visible; otherwise branch on the dialog's save type into
`_save_as_view` (view id derived from the lowercased, underscored name;
`create_view` or else `update_view`) or `_save_as_layout_from_view_dialog`
(same body as `save_current_layout`). Result: (views, layouts, wrote file,
outcome). -/
def save_current_view (windows : List (String × Window)) (views : ViewStoreT)
    (layouts : LayoutStoreT) (dialogAccepted : Bool) (kind : SaveKind)
    (nm desc : String) (overwriteYes : Bool) (sw sh : Int) (writeOk : Bool) :
    ViewStoreT × LayoutStoreT × Bool × SaveOutcome :=
  let vis := windows.filter fun p => p.2.visible
  if vis = [] then (views, layouts, false, SaveOutcome.noWindows)
  else if dialogAccepted = false then (views, layouts, false, SaveOutcome.cancelled)
  else
    match kind with
    | SaveKind.view =>
        let view_id := nm.toLower.replace " " "_"
        if (alookup views view_id).isSome ∧ overwriteYes = false then
          (views, layouts, false, SaveOutcome.overwriteDeclined)
        else
          let wdefs := vis.map fun p =>
            WinDef.mk p.1 (normalizeRect p.2.rect sw sh) none
          let desc2 := if desc = "" then "Custom view: " ++ nm else desc
          let c := create_view views view_id nm desc2 view_id wdefs
          if c.2.1 then (c.1, layouts, c.2.2, SaveOutcome.saved)
          else
            let u := update_view views view_id
              [("name", Val.str nm), ("description", Val.str desc2),
               ("layout", Val.str view_id), ("windows", Val.winDefs wdefs)]
            (u.1, layouts, u.2.2,
             if u.2.1 then SaveOutcome.saved else SaveOutcome.saveError)
    | SaveKind.layout =>
        if nm ∈ layouts.map Prod.fst ∧ overwriteYes = false then
          (views, layouts, false, SaveOutcome.overwriteDeclined)
        else
          let desc2 := if desc = "" then "Custom layout: " ++ nm else desc
          let slots := vis.map fun p =>
            Slot.mk ("Slot for " ++ p.1) (normalizeRect p.2.rect sw sh)
          let layouts2 := dset layouts nm { description := desc2, slots := slots }
          (views, layouts2, writeOk,
           if writeOk then SaveOutcome.saved else SaveOutcome.saveError)

/-! Helper lemmas. -/

theorem pyInt_intCast (n : Int) : pyInt (n : ℚ) = n := by
  unfold pyInt
  rw [Rat.num_intCast, Rat.den_intCast, Nat.cast_one, Int.tdiv_one]

theorem clampWH_eq_self {q : ℚ} (h1 : (0.05 : ℚ) ≤ q) (h2 : q ≤ 2) :
    clampWH q = q := by
  unfold clampWH
  rw [min_eq_right h2, max_eq_right h1]

theorem clampWH_le_two (q : ℚ) : clampWH q ≤ 2 := by
  unfold clampWH
  exact max_le (by norm_num) (min_le_left _ _)

theorem le_clampWH (q : ℚ) : (0.05 : ℚ) ≤ clampWH q := le_max_left _ _

theorem pyInt_div_mul (a b : Int) (hb : (b : ℚ) ≠ 0) :
    pyInt ((a : ℚ) / (b : ℚ) * (b : ℚ)) = a := by
  rw [div_mul_cancel₀ _ hb, pyInt_intCast]

/-- C1: as stated — that for every pixel rectangle and positive screen size
the normalize/denormalize round trip is within one pixel in each dimension —
the claim is false: a 1×1 pixel rectangle on a 1920×1080 screen has its width
clamped up to the 0.05 fraction and comes back as 96 pixels. -/
theorem c1_roundtrip_counterexample :
    ¬ (|(denormalizeRect (normalizeRect ⟨0, 0, 1, 1⟩ 1920 1080) 1920 1080).w -
        (PixelRect.mk 0 0 1 1).w| ≤ 1) := by
  have hc : clampWH ((((1 : Int) : ℚ)) / (((1920 : Int) : ℚ))) = 1 / 20 := by
    unfold clampWH
    rw [min_eq_right (by norm_num), max_eq_left (by norm_num)]
    norm_num
  show ¬ (|pyInt (clampWH ((((1 : Int) : ℚ)) / (((1920 : Int) : ℚ))) *
      (((1920 : Int) : ℚ))) - (1 : Int)| ≤ 1)
  rw [hc]
  have h96 : (1 / 20 : ℚ) * (((1920 : Int) : ℚ)) = (((96 : Int) : ℚ)) := by norm_num
  rw [h96, pyInt_intCast]
  decide

/-- C1 (amended): for every pixel rectangle whose width and height lie between
5% and 200% of the corresponding positive screen dimension (so that the
width/height clamp of `normalize` does not fire), denormalizing the result of
normalizing against that screen yields the original rectangle within one pixel
in each of x, y, width and height (in fact exactly, in the rational model). -/
theorem c1_roundtrip (r : PixelRect) (sw sh : Int)
    (hsw : 0 < sw) (hsh : 0 < sh)
    (hw1 : sw ≤ 20 * r.w) (hw2 : r.w ≤ 2 * sw)
    (hh1 : sh ≤ 20 * r.h) (hh2 : r.h ≤ 2 * sh) :
    |(denormalizeRect (normalizeRect r sw sh) sw sh).x - r.x| ≤ 1 ∧
    |(denormalizeRect (normalizeRect r sw sh) sw sh).y - r.y| ≤ 1 ∧
    |(denormalizeRect (normalizeRect r sw sh) sw sh).w - r.w| ≤ 1 ∧
    |(denormalizeRect (normalizeRect r sw sh) sw sh).h - r.h| ≤ 1 := by
  have hswq : (0 : ℚ) < (sw : ℚ) := by exact_mod_cast hsw
  have hshq : (0 : ℚ) < (sh : ℚ) := by exact_mod_cast hsh
  have hswne : ((sw : Int) : ℚ) ≠ 0 := ne_of_gt hswq
  have hshne : ((sh : Int) : ℚ) ≠ 0 := ne_of_gt hshq
  have hwq1 : ((sw : Int) : ℚ) ≤ 20 * (r.w : ℚ) := by exact_mod_cast hw1
  have hwq2 : ((r.w : Int) : ℚ) ≤ 2 * (sw : ℚ) := by exact_mod_cast hw2
  have hhq1 : ((sh : Int) : ℚ) ≤ 20 * (r.h : ℚ) := by exact_mod_cast hh1
  have hhq2 : ((r.h : Int) : ℚ) ≤ 2 * (sh : ℚ) := by exact_mod_cast hh2
  have hcw : clampWH ((r.w : ℚ) / (sw : ℚ)) = (r.w : ℚ) / (sw : ℚ) := by
    refine clampWH_eq_self ?_ ?_
    · rw [le_div_iff₀ hswq]; linarith
    · rw [div_le_iff₀ hswq]; linarith
  have hch : clampWH ((r.h : ℚ) / (sh : ℚ)) = (r.h : ℚ) / (sh : ℚ) := by
    refine clampWH_eq_self ?_ ?_
    · rw [le_div_iff₀ hshq]; linarith
    · rw [div_le_iff₀ hshq]; linarith
  have hD : denormalizeRect (normalizeRect r sw sh) sw sh = r := by
    show PixelRect.mk _ _ _ _ = r
    simp only [normalizeRect, denormalizeRect, hcw, hch]
    rw [pyInt_div_mul _ _ hswne, pyInt_div_mul _ _ hshne,
        pyInt_div_mul _ _ hswne, pyInt_div_mul _ _ hshne]
  rw [hD]
  simp

/-- C1 witness: a 960×540 rectangle at (100, 50) on a 1920×1080 screen
satisfies the clamp-free side conditions and round-trips within one pixel. -/
theorem c1_roundtrip_witness :
    (0 : Int) < 1920 ∧
    |(denormalizeRect (normalizeRect ⟨100, 50, 960, 540⟩ 1920 1080) 1920 1080).x -
      (PixelRect.mk 100 50 960 540).x| ≤ 1 ∧
    |(denormalizeRect (normalizeRect ⟨100, 50, 960, 540⟩ 1920 1080) 1920 1080).y -
      (PixelRect.mk 100 50 960 540).y| ≤ 1 ∧
    |(denormalizeRect (normalizeRect ⟨100, 50, 960, 540⟩ 1920 1080) 1920 1080).w -
      (PixelRect.mk 100 50 960 540).w| ≤ 1 ∧
    |(denormalizeRect (normalizeRect ⟨100, 50, 960, 540⟩ 1920 1080) 1920 1080).h -
      (PixelRect.mk 100 50 960 540).h| ≤ 1 :=
  ⟨by decide,
   c1_roundtrip ⟨100, 50, 960, 540⟩ 1920 1080 (by decide) (by decide)
     (by decide) (by decide) (by decide) (by decide)⟩

/-- C2: for every pixel rectangle and positive screen size, the normalized
fractional width and height are clamped into [0.05, 2.0] (a rectangle three
screen-widths wide normalizes to fractional width exactly 2.0), while the
fractional x and y are the unclamped quotients. -/
theorem c2_clamping (r : PixelRect) (sw sh : Int)
    (hsw : 0 < sw) (_hsh : 0 < sh) :
    ((0.05 : ℚ) ≤ (normalizeRect r sw sh).w ∧ (normalizeRect r sw sh).w ≤ 2) ∧
    ((0.05 : ℚ) ≤ (normalizeRect r sw sh).h ∧ (normalizeRect r sw sh).h ≤ 2) ∧
    (normalizeRect r sw sh).x = (r.x : ℚ) / (sw : ℚ) ∧
    (normalizeRect r sw sh).y = (r.y : ℚ) / (sh : ℚ) ∧
    (r.w = 3 * sw → (normalizeRect r sw sh).w = 2) := by
  refine ⟨⟨le_clampWH _, clampWH_le_two _⟩, ⟨le_clampWH _, clampWH_le_two _⟩,
    rfl, rfl, fun h3 => ?_⟩
  have hswq : (0 : ℚ) < (sw : ℚ) := by exact_mod_cast hsw
  show clampWH ((r.w : ℚ) / (sw : ℚ)) = 2
  have : ((r.w : Int) : ℚ) / (sw : ℚ) = 3 := by
    rw [h3]
    push_cast
    rw [mul_div_assoc, div_self (ne_of_gt hswq), mul_one]
  rw [this]
  unfold clampWH
  rw [min_eq_left (by norm_num), max_eq_right (by norm_num)]

/-- C2 witness: a rectangle of width 3×1920 on a 1920×1080 screen. -/
theorem c2_clamping_witness :
    (0 : Int) < 1920 ∧
    (((0.05 : ℚ) ≤ (normalizeRect ⟨0, 0, 5760, 1080⟩ 1920 1080).w ∧
      (normalizeRect ⟨0, 0, 5760, 1080⟩ 1920 1080).w ≤ 2) ∧
     ((0.05 : ℚ) ≤ (normalizeRect ⟨0, 0, 5760, 1080⟩ 1920 1080).h ∧
      (normalizeRect ⟨0, 0, 5760, 1080⟩ 1920 1080).h ≤ 2) ∧
     (normalizeRect ⟨0, 0, 5760, 1080⟩ 1920 1080).x =
       ((PixelRect.mk 0 0 5760 1080).x : ℚ) / ((1920 : Int) : ℚ) ∧
     (normalizeRect ⟨0, 0, 5760, 1080⟩ 1920 1080).y =
       ((PixelRect.mk 0 0 5760 1080).y : ℚ) / ((1080 : Int) : ℚ) ∧
     ((PixelRect.mk 0 0 5760 1080).w = 3 * 1920 →
       (normalizeRect ⟨0, 0, 5760, 1080⟩ 1920 1080).w = 2)) :=
  ⟨by decide, c2_clamping ⟨0, 0, 5760, 1080⟩ 1920 1080 (by decide) (by decide)⟩

/-! Association-list lemmas. -/

theorem alookup_cons {α : Type} (e : String × α) (t : List (String × α)) (k : String) :
    alookup (e :: t) k = if e.1 = k then some e.2 else alookup t k := by
  obtain ⟨a, b⟩ := e
  rfl

theorem alookup_eq_none_iff {α : Type} (l : List (String × α)) (k : String) :
    alookup l k = none ↔ k ∉ l.map Prod.fst := by
  induction l with
  | nil => simp [alookup]
  | cons e t ih =>
      rw [alookup_cons]
      by_cases he : e.1 = k
      · simp [he]
      · simp only [if_neg he, ih, List.map_cons, List.mem_cons]
        constructor
        · intro h hmem
          rcases hmem with h1 | h2
          · exact he h1.symm
          · exact h h2
        · intro h h2
          exact h (Or.inr h2)

theorem alookup_mem_values {α : Type} (l : List (String × α)) (k : String) (v : α)
    (h : alookup l k = some v) : v ∈ l.map Prod.snd := by
  induction l with
  | nil => cases h
  | cons e t ih =>
      rw [alookup_cons] at h
      by_cases he : e.1 = k
      · rw [if_pos he] at h
        cases h
        exact List.mem_map_of_mem Prod.snd (List.mem_cons_self e t)
      · rw [if_neg he] at h
        exact List.mem_cons_of_mem _ (ih h)

theorem alookup_filter_some (keys : List String) (l : List (String × String))
    (k v : String) (h : alookup l k = some v) (hv : v ∈ keys) :
    alookup (l.filter fun e => decide (e.2 ∈ keys)) k = some v := by
  induction l with
  | nil => cases h
  | cons e t ih =>
      rw [alookup_cons] at h
      rw [List.filter_cons]
      by_cases he : e.1 = k
      · rw [if_pos he] at h
        cases h
        rw [if_pos (by simpa using hv), alookup_cons, if_pos he]
      · rw [if_neg he] at h
        by_cases hk : e.2 ∈ keys
        · rw [if_pos (by simpa using hk), alookup_cons, if_neg he]
          exact ih h
        · rw [if_neg (by simpa using hk)]
          exact ih h

theorem filter_keys_subset {α : Type} (pred : String × α → Bool)
    (l : List (String × α)) :
    (l.filter pred).map Prod.fst ⊆ l.map Prod.fst :=
  ((List.filter_sublist l).map Prod.fst).subset

theorem alookup_filter_dropped (keys : List String) (l : List (String × String))
    (k v : String) (hnd : (l.map Prod.fst).Nodup)
    (h : alookup l k = some v) (hv : v ∉ keys) :
    alookup (l.filter fun e => decide (e.2 ∈ keys)) k = none := by
  induction l with
  | nil => cases h
  | cons e t ih =>
      rw [List.map_cons, List.nodup_cons] at hnd
      rw [alookup_cons] at h
      rw [List.filter_cons]
      by_cases he : e.1 = k
      · rw [if_pos he] at h
        cases h
        rw [if_neg (by simpa using hv)]
        rw [alookup_eq_none_iff]
        intro hmem
        exact hnd.1 (he ▸ filter_keys_subset _ t hmem)
      · rw [if_neg he] at h
        by_cases hk : e.2 ∈ keys
        · rw [if_pos (by simpa using hk), alookup_cons, if_neg he]
          exact ih hnd.2 h
        · rw [if_neg (by simpa using hk)]
          exact ih hnd.2 h

/-! Structure of `apply_layout` as entrywise maps. -/

theorem hideAllE_fst (p : String × Window) : (hideAllE p).1 = p.1 := rfl

theorem hideAllE_visible (p : String × Window) : (hideAllE p).2.visible = false := rfl

theorem applySlot_eq_map (keys : List String) (asg : List (String × String))
    (sw sh : Int) (ws : List (String × Window)) (s : Slot) :
    applySlot keys asg sw sh ws s
      = ws.map (fun p => applySlotE keys asg sw sh p s) := by
  rcases hA : alookup asg s.id with _ | pid
  · simp only [applySlot, applySlotE, hA, List.map_id']
  · by_cases hg : pid ≠ "" ∧ pid ∈ keys
    · simp only [applySlot, applySlotE, hA, if_pos hg]
    · simp only [applySlot, applySlotE, hA, if_neg hg, List.map_id']

theorem foldl_applySlot (keys : List String) (asg : List (String × String))
    (sw sh : Int) (slots : List Slot) (ws : List (String × Window)) :
    slots.foldl (applySlot keys asg sw sh) ws
      = ws.map (fun p => slots.foldl (applySlotE keys asg sw sh) p) := by
  induction slots generalizing ws with
  | nil => simp
  | cons s t ih =>
      rw [List.foldl_cons, applySlot_eq_map, ih, List.map_map]
      rfl

theorem applySlotE_fst (keys : List String) (asg : List (String × String))
    (sw sh : Int) (p : String × Window) (s : Slot) :
    (applySlotE keys asg sw sh p s).1 = p.1 := by
  rcases hA : alookup asg s.id with _ | pid
  · simp only [applySlotE, hA]
  · by_cases hg : pid ≠ "" ∧ pid ∈ keys
    · simp only [applySlotE, hA, if_pos hg]
      by_cases hp : p.1 = pid
      · rw [if_pos hp]
      · rw [if_neg hp]
    · simp only [applySlotE, hA, if_neg hg]

theorem foldl_applySlotE_fst (keys : List String) (asg : List (String × String))
    (sw sh : Int) (slots : List Slot) (p : String × Window) :
    (slots.foldl (applySlotE keys asg sw sh) p).1 = p.1 := by
  induction slots generalizing p with
  | nil => rfl
  | cons s t ih => rw [List.foldl_cons, ih, applySlotE_fst]

theorem foldl_applySlotE_visible_mono (keys : List String)
    (asg : List (String × String)) (sw sh : Int) (slots : List Slot)
    (p : String × Window) (h : p.2.visible = true) :
    (slots.foldl (applySlotE keys asg sw sh) p).2.visible = true := by
  induction slots generalizing p with
  | nil => exact h
  | cons s t ih =>
      rw [List.foldl_cons]
      refine ih _ ?_
      rcases hA : alookup asg s.id with _ | pid
      · simp only [applySlotE, hA]
        exact h
      · by_cases hg : pid ≠ "" ∧ pid ∈ keys
        · simp only [applySlotE, hA, if_pos hg]
          by_cases hp : p.1 = pid
          · rw [if_pos hp]
          · rw [if_neg hp]
            exact h
        · simp only [applySlotE, hA, if_neg hg]
          exact h

theorem foldl_applySlotE_visible_iff (keys : List String)
    (asg : List (String × String)) (sw sh : Int) (slots : List Slot)
    (p : String × Window) (h : p.2.visible = false) :
    ((slots.foldl (applySlotE keys asg sw sh) p).2.visible = true
      ↔ ∃ s ∈ slots, alookup asg s.id = some p.1 ∧ p.1 ≠ "" ∧ p.1 ∈ keys) := by
  induction slots generalizing p with
  | nil => simp [h]
  | cons s t ih =>
      rw [List.foldl_cons]
      rcases hA : alookup asg s.id with _ | pid
      · have he : applySlotE keys asg sw sh p s = p := by
          simp only [applySlotE, hA]
        rw [he, ih p h]
        constructor
        · rintro ⟨u, hu, h1, h2⟩
          exact ⟨u, List.mem_cons_of_mem _ hu, h1, h2⟩
        · rintro ⟨u, hu, h1, h2⟩
          rcases List.mem_cons.mp hu with rfl | hu2
          · rw [hA] at h1
            cases h1
          · exact ⟨u, hu2, h1, h2⟩
      · by_cases hg : pid ≠ "" ∧ pid ∈ keys
        · by_cases hp : p.1 = pid
          · have he : applySlotE keys asg sw sh p s
                = (p.1, ⟨true, denormalizeRect s.geometry sw sh⟩) := by
              simp only [applySlotE, hA, if_pos hg, if_pos hp]
            rw [he,
              foldl_applySlotE_visible_mono keys asg sw sh t
                (p.1, ⟨true, denormalizeRect s.geometry sw sh⟩) rfl]
            simp only [true_iff]
            refine ⟨s, List.mem_cons_self s t, ?_, ?_, ?_⟩
            · rw [hA, hp]
            · rw [hp]
              exact hg.1
            · rw [hp]
              exact hg.2
          · have he : applySlotE keys asg sw sh p s = p := by
              simp only [applySlotE, hA, if_pos hg, if_neg hp]
            rw [he, ih p h]
            constructor
            · rintro ⟨u, hu, h1, h2⟩
              exact ⟨u, List.mem_cons_of_mem _ hu, h1, h2⟩
            · rintro ⟨u, hu, h1, h2⟩
              rcases List.mem_cons.mp hu with rfl | hu2
              · rw [hA] at h1
                cases h1
                exact absurd rfl hp
              · exact ⟨u, hu2, h1, h2⟩
        · have he : applySlotE keys asg sw sh p s = p := by
            simp only [applySlotE, hA, if_neg hg]
          rw [he, ih p h]
          constructor
          · rintro ⟨u, hu, h1, h2⟩
            exact ⟨u, List.mem_cons_of_mem _ hu, h1, h2⟩
          · rintro ⟨u, hu, h1, h2⟩
            rcases List.mem_cons.mp hu with rfl | hu2
            · rw [hA] at h1
              cases h1
              exact absurd ⟨h2.1, h2.2⟩ hg
            · exact ⟨u, hu2, h1, h2⟩

/-- C4: for every existing layout and any assignment, `apply_layout` first
hides every registered window (every entry of the `hideAll` phase is hidden),
and after it returns an entry of the registry is visible exactly when some
slot of the layout is assigned to that entry's window id; in particular every
registered window not assigned to any slot of this layout ends up hidden. -/
theorem c4_apply_layout_visibility (layouts : List (String × Layout))
    (ws : List (String × Window)) (asg : List (String × String)) (name : String)
    (sw sh : Int) (lay : Layout) (q p : String × Window)
    (hlay : alookup layouts name = some lay)
    (hkeys : "" ∉ ws.map Prod.fst)
    (hq : q ∈ hideAll ws)
    (hp : p ∈ apply_layout layouts ws asg name sw sh) :
    q.2.visible = false ∧
    (p.2.visible = true ↔ ∃ s ∈ lay.slots, alookup asg s.id = some p.1) := by
  constructor
  · rcases List.mem_map.mp hq with ⟨e, _, rfl⟩
    rfl
  · simp only [apply_layout, hlay] at hp
    rw [foldl_applySlot] at hp
    unfold hideUnassigned at hp
    rcases List.mem_map.mp hp with ⟨r2, hr2, rfl⟩
    rcases List.mem_map.mp hr2 with ⟨e1, he1, rfl⟩
    unfold hideAll at he1
    rcases List.mem_map.mp he1 with ⟨p0, hp0, rfl⟩
    have hmem : p0.1 ∈ ws.map Prod.fst := List.mem_map_of_mem Prod.fst hp0
    have hne : p0.1 ≠ "" := fun h0 => hkeys (h0 ▸ hmem)
    show (hideUnassignedE (asg.map Prod.snd)
        (lay.slots.foldl (applySlotE (ws.map Prod.fst) asg sw sh) (hideAllE p0))).2.visible
          = true
      ↔ ∃ s ∈ lay.slots, alookup asg s.id
          = some (hideUnassignedE (asg.map Prod.snd)
              (lay.slots.foldl (applySlotE (ws.map Prod.fst) asg sw sh) (hideAllE p0))).1
    have hiff := foldl_applySlotE_visible_iff (ws.map Prod.fst) asg sw sh
      lay.slots (hideAllE p0) (hideAllE_visible p0)
    set F := lay.slots.foldl (applySlotE (ws.map Prod.fst) asg sw sh) (hideAllE p0)
      with hF
    have hFfst : F.1 = p0.1 := by
      rw [hF, foldl_applySlotE_fst, hideAllE_fst]
    simp only [hideAllE_fst] at hiff
    by_cases hpg : F.1 ∈ asg.map Prod.snd
    · have hE : hideUnassignedE (asg.map Prod.snd) F = F := by
        simp only [hideUnassignedE, if_pos hpg]
      rw [hE, hFfst, hiff]
      constructor
      · rintro ⟨u, hu, h1, _⟩
        exact ⟨u, hu, h1⟩
      · rintro ⟨u, hu, h1⟩
        exact ⟨u, hu, h1, hne, hmem⟩
    · have hE : hideUnassignedE (asg.map Prod.snd) F
          = (F.1, { F.2 with visible := false }) := by
        simp only [hideUnassignedE, if_neg hpg]
      rw [hE]
      rw [hFfst] at hpg
      constructor
      · intro hfalse
        simp at hfalse
      · rintro ⟨u, _, h1⟩
        have h1' : alookup asg u.id = some p0.1 := by
          rw [← hFfst]
          exact h1
        exact absurd (alookup_mem_values asg u.id _ h1') hpg
theorem c4_apply_layout_visibility_witness :
    alookup [("L", Layout.mk "d" [Slot.mk "s1" ⟨0, 0, 1, 1⟩])] "L"
        = some (Layout.mk "d" [Slot.mk "s1" ⟨0, 0, 1, 1⟩]) ∧
    ("w1", Window.mk false ⟨0, 0, 10, 10⟩)
        ∈ hideAll [("w1", Window.mk true ⟨0, 0, 10, 10⟩),
                   ("w2", Window.mk true ⟨1, 1, 20, 20⟩)] ∧
    ("w2", Window.mk false ⟨1, 1, 20, 20⟩)
        ∈ apply_layout [("L", Layout.mk "d" [Slot.mk "s1" ⟨0, 0, 1, 1⟩])]
            [("w1", Window.mk true ⟨0, 0, 10, 10⟩),
             ("w2", Window.mk true ⟨1, 1, 20, 20⟩)] [] "L" 100 100 ∧
    ((Window.mk false ⟨0, 0, 10, 10⟩).visible = false ∧
     ((Window.mk false ⟨1, 1, 20, 20⟩).visible = true ↔
       ∃ s ∈ [Slot.mk "s1" (FracRect.mk 0 0 1 1)],
         alookup ([] : List (String × String)) s.id = some "w2")) :=
  ⟨by decide, by decide, by decide,
   c4_apply_layout_visibility
     [("L", Layout.mk "d" [Slot.mk "s1" ⟨0, 0, 1, 1⟩])]
     [("w1", Window.mk true ⟨0, 0, 10, 10⟩), ("w2", Window.mk true ⟨1, 1, 20, 20⟩)]
     [] "L" 100 100 (Layout.mk "d" [Slot.mk "s1" ⟨0, 0, 1, 1⟩])
     ("w1", Window.mk false ⟨0, 0, 10, 10⟩) ("w2", Window.mk false ⟨1, 1, 20, 20⟩)
     (by decide) (by decide) (by decide) (by decide)⟩

theorem alookup_filter_none (keys : List String) (l : List (String × String))
    (k : String) (h : alookup l k = none) :
    alookup (l.filter fun e => decide (e.2 ∈ keys)) k = none := by
  rw [alookup_eq_none_iff] at h ⊢
  intro hmem
  exact h (filter_keys_subset _ l hmem)

theorem applySlot_filter (keys : List String) (asg : List (String × String))
    (sw sh : Int) (hnd : (asg.map Prod.fst).Nodup)
    (ws0 : List (String × Window)) (s : Slot) :
    applySlot keys (asg.filter fun e => decide (e.2 ∈ keys)) sw sh ws0 s
      = applySlot keys asg sw sh ws0 s := by
  rcases hA : alookup asg s.id with _ | pid
  · have hA2 : alookup (asg.filter fun e => decide (e.2 ∈ keys)) s.id = none :=
      alookup_filter_none keys asg s.id hA
    simp only [applySlot, hA, hA2]
  · by_cases hk : pid ∈ keys
    · have hA2 := alookup_filter_some keys asg s.id pid hA hk
      simp only [applySlot, hA, hA2]
    · have hA2 := alookup_filter_dropped keys asg s.id pid hnd hA hk
      simp only [applySlot, hA, hA2]
      rw [if_neg (fun hand => hk hand.2)]

theorem foldl_applySlot_filter (keys : List String) (asg : List (String × String))
    (sw sh : Int) (hnd : (asg.map Prod.fst).Nodup) (slots : List Slot)
    (ws0 : List (String × Window)) :
    slots.foldl (applySlot keys (asg.filter fun e => decide (e.2 ∈ keys)) sw sh) ws0
      = slots.foldl (applySlot keys asg sw sh) ws0 := by
  have hfun : applySlot keys (asg.filter fun e => decide (e.2 ∈ keys)) sw sh
      = applySlot keys asg sw sh :=
    funext fun ws1 => funext fun s => applySlot_filter keys asg sw sh hnd ws1 s
  rw [hfun]

theorem mem_values_filter (keys : List String) (asg : List (String × String))
    (k : String) (hk : k ∈ keys) :
    (k ∈ asg.map Prod.snd
      ↔ k ∈ (asg.filter fun e => decide (e.2 ∈ keys)).map Prod.snd) := by
  constructor
  · intro h
    rcases List.mem_map.mp h with ⟨e, he, rfl⟩
    exact List.mem_map_of_mem Prod.snd (List.mem_filter.mpr ⟨he, by simpa using hk⟩)
  · intro h
    rcases List.mem_map.mp h with ⟨e, he, rfl⟩
    exact List.mem_map_of_mem Prod.snd (List.mem_filter.mp he).1

theorem hideUnassigned_congr (pages pages2 : List String)
    (ws2 : List (String × Window))
    (h : ∀ p ∈ ws2, (p.1 ∈ pages ↔ p.1 ∈ pages2)) :
    hideUnassigned pages ws2 = hideUnassigned pages2 ws2 := by
  unfold hideUnassigned
  refine List.map_congr_left fun p hp => ?_
  unfold hideUnassignedE
  by_cases hm : p.1 ∈ pages
  · rw [if_pos hm, if_pos ((h p hp).mp hm)]
  · rw [if_neg hm, if_neg (fun hm2 => hm ((h p hp).mpr hm2))]

theorem mem_foldl_keys (keys : List String) (asg : List (String × String))
    (sw sh : Int) (slots : List Slot) (ws : List (String × Window))
    (p : String × Window)
    (hp : p ∈ slots.foldl (applySlot keys asg sw sh) (hideAll ws)) :
    p.1 ∈ ws.map Prod.fst := by
  rw [foldl_applySlot] at hp
  unfold hideAll at hp
  obtain ⟨e1, he1, rfl⟩ := List.mem_map.mp hp
  obtain ⟨p0, hp0, rfl⟩ := List.mem_map.mp he1
  show (slots.foldl (applySlotE keys asg sw sh) (hideAllE p0)).1 ∈ ws.map Prod.fst
  rw [foldl_applySlotE_fst, hideAllE_fst]
  exact List.mem_map_of_mem Prod.fst hp0

/-- C5: applying a layout with an assignment containing entries whose window
id is not in the registry is a total operation that produces exactly the same
final registry as applying the assignment with those dead entries removed:
the dead slots are skipped and every other slot proceeds normally. -/
theorem c5_dead_entries_skipped (layouts : List (String × Layout))
    (ws : List (String × Window)) (asg : List (String × String)) (name : String)
    (sw sh : Int) (hnd : (asg.map Prod.fst).Nodup) :
    apply_layout layouts ws asg name sw sh
      = apply_layout layouts ws
          (asg.filter fun e => decide (e.2 ∈ ws.map Prod.fst)) name sw sh := by
  rcases hL : alookup layouts name with _ | lay
  · simp only [apply_layout, hL]
  · simp only [apply_layout, hL]
    rw [foldl_applySlot_filter (ws.map Prod.fst) asg sw sh hnd]
    exact hideUnassigned_congr _ _ _ fun p hp =>
      mem_values_filter (ws.map Prod.fst) asg p.1
        (mem_foldl_keys _ _ _ _ _ _ p hp)

/-- C5 witness: an assignment whose only entry names the nonexistent window
id "ghost" behaves exactly like the empty (filtered) assignment. -/
theorem c5_dead_entries_skipped_witness :
    ([("s1", "ghost")].map (Prod.fst (α := String) (β := String))).Nodup ∧
    apply_layout [("L", Layout.mk "d" [Slot.mk "s1" ⟨0, 0, 1, 1⟩])]
        [("w1", Window.mk true ⟨0, 0, 10, 10⟩)] [("s1", "ghost")] "L" 100 100
      = apply_layout [("L", Layout.mk "d" [Slot.mk "s1" ⟨0, 0, 1, 1⟩])]
          [("w1", Window.mk true ⟨0, 0, 10, 10⟩)]
          ([("s1", "ghost")].filter fun e =>
            decide (e.2 ∈ [("w1", Window.mk true ⟨0, 0, 10, 10⟩)].map Prod.fst))
          "L" 100 100 :=
  ⟨by decide,
   c5_dead_entries_skipped [("L", Layout.mk "d" [Slot.mk "s1" ⟨0, 0, 1, 1⟩])]
     [("w1", Window.mk true ⟨0, 0, 10, 10⟩)] [("s1", "ghost")] "L" 100 100
     (by decide)⟩

/-! Refresh-engine lemmas. -/

theorem rinv_init : RInv initRState := by
  refine ⟨fun h => ?_, fun h => ?_, fun h => ?_, fun h => ?_⟩ <;>
    simp [initRState] at h

theorem rinv_onFinished (s : RState) (hInv : RInv s) (ok : Bool) :
    RInv (onFinished s ok) := by
  unfold onFinished
  by_cases h1 : ok = false ∨ s.bgAlive = false
  · rw [if_pos h1]
    exact hInv
  · rw [if_neg h1]
    by_cases h2 : s.progress < 100
    · rw [if_pos h2]
      exact ⟨hInv.1, hInv.2.1, hInv.2.2.1, hInv.2.2.2⟩
    · rw [if_neg h2]
      refine ⟨hInv.1, fun _ => ?_, hInv.2.2.1, hInv.2.2.2⟩
      exact hInv.1 (Nat.le_of_not_lt h2)

theorem rinv_step (s : RState) (e : Ev) (hInv : RInv s) : RInv (stepEv s e) := by
  cases e with
  | progressEv p =>
      simp only [stepEv]
      refine ⟨fun h => ?_, fun h => ?_, fun h => ?_, fun h => ?_⟩
      · simp [h]
      · simp [hInv.2.1 h]
      · simp [hInv.2.2.1 h]
      · simp [hInv.2.2.2 h]
  | finishedEv ok => exact rinv_onFinished s hInv ok
  | retryEv =>
      simp only [stepEv]
      by_cases h : 0 < s.retryP
      · rw [if_pos h]
        exact rinv_onFinished { s with retryP := s.retryP - 1 }
          ⟨hInv.1, hInv.2.1, hInv.2.2.1, hInv.2.2.2⟩ true
      · rw [if_neg h]
        exact hInv
  | settleEv =>
      simp only [stepEv]
      by_cases h : 0 < s.settleP
      · rw [if_pos h]
        have hr : s.reached = true := hInv.2.1 h
        by_cases hb : s.bgAlive = true
        · rw [if_pos hb]
          exact ⟨fun _ => hr, fun _ => hr, fun _ => hr, fun _ => hr⟩
        · rw [if_neg hb]
          exact ⟨hInv.1, fun _ => hr, hInv.2.2.1, hInv.2.2.2⟩
      · rw [if_neg h]
        exact hInv
  | paintEv =>
      simp only [stepEv]
      by_cases h : 0 < s.paintP
      · rw [if_pos h]
        have hr : s.reached = true := hInv.2.2.1 h
        by_cases hb : s.bgAlive = true
        · rw [if_pos hb]
          exact ⟨fun _ => hr, fun _ => hr, fun _ => hr, fun _ => hr⟩
        · rw [if_neg hb]
          exact ⟨hInv.1, hInv.2.1, fun _ => hr, hInv.2.2.2⟩
      · rw [if_neg h]
        exact hInv
  | cleanupEv =>
      simp only [stepEv]
      by_cases h : 0 < s.cleanupP
      · rw [if_pos h]
        exact ⟨hInv.1, hInv.2.1, hInv.2.2.1, hInv.2.2.2⟩
      · rw [if_neg h]
        exact hInv

theorem rinv_foldl (tr : List Ev) : ∀ s, RInv s → RInv (tr.foldl stepEv s) := by
  induction tr with
  | nil => exact fun s h => h
  | cons e t ih =>
      intro s h
      rw [List.foldl_cons]
      exact ih _ (rinv_step s e h)

/-- C6 (amended): a swap is only ever performed after the tracked load
progress has reached 100 at some point of the cycle (though a later progress
report may regress below 100 before the swap fires); and the spec's scenario
— finished at 80%, progress 100 later, then the re-check and settle timers —
performs no swap up to and including the progress-100 event, and exactly one
swap over the whole sequence. -/
theorem c6_swap_requires_full_progress :
    (∀ tr : List Ev, 0 < (runEvents tr).swaps → (runEvents tr).reached = true) ∧
    (runEvents (refreshTrace.take 3)).swaps = 0 ∧
    (runEvents (refreshTrace.take 5)).swaps = 0 ∧
    (runEvents refreshTrace).swaps = 1 := by
  refine ⟨fun tr h => ?_, by decide, by decide, by decide⟩
  exact (rinv_foldl tr initRState rinv_init).2.2.2 h

/-- C6 witness: the spec's own scenario performs a swap, and indeed its run
has seen full progress. -/
theorem c6_swap_requires_full_progress_witness :
    0 < (runEvents refreshTrace).swaps ∧ (runEvents refreshTrace).reached = true :=
  ⟨by decide, c6_swap_requires_full_progress.1 refreshTrace (by decide)⟩

/-- C6 counterexample: as literally stated ("a swap is never performed while
the tracked load-progress is below 100") the claim fails: if a progress report
of 80 arrives after the finish-time check has passed, the pending settle and
paint timers still fire the swap while the tracked progress is 80. -/
theorem c6_swap_below_100_counterexample :
    (runEvents (regressTrace.take 4)).swaps = 0 ∧
    (runEvents (regressTrace.take 4)).progress = 80 ∧
    (runEvents regressTrace).swaps = 1 ∧
    (runEvents regressTrace).progress = 80 := by
  exact ⟨by decide, by decide, by decide, by decide⟩

/-- C7 (amended): a load-finished event reporting failure leaves the refresh
state entirely unchanged: no swap occurs, the visible page is untouched — and
the background surface is retained (not discarded) until the next cycle. -/
theorem c7_failed_load_noop (s : RState) : stepEv s (Ev.finishedEv false) = s := by
  show onFinished s false = s
  unfold onFinished
  rw [if_pos (Or.inl rfl)]

/-- C7 counterexample: the claim that a failed load discards the background
surface is false — after a failure event the background surface is still
alive (it is only cleaned up when the next refresh cycle starts or the
window closes), while indeed no swap occurred and the visible page is
unchanged. -/
theorem c7_surface_not_discarded_counterexample :
    (stepEv initRState (Ev.finishedEv false)).bgAlive = true ∧
    (stepEv initRState (Ev.finishedEv false)).visiblePage = initRState.visiblePage ∧
    (stepEv initRState (Ev.finishedEv false)).swaps = 0 := by
  exact ⟨by decide, by decide, by decide⟩

/-! Store lemmas. -/

theorem alookup_map_edit {α : Type} (l : List (String × α)) (a b : String)
    (g : α → α) :
    alookup (l.map fun e => if e.1 = a then (e.1, g e.2) else e) b
      = if a = b then (alookup l b).map g else alookup l b := by
  induction l with
  | nil =>
      show (none : Option α) = if a = b then Option.map g none else none
      split <;> rfl
  | cons e t ih =>
      simp only [List.map_cons, alookup_cons]
      by_cases hea : e.1 = a
      · by_cases heb : e.1 = b
        · have hab : a = b := by rw [← hea, heb]
          simp [hea, heb, hab]
        · have hab : a ≠ b := fun h0 => heb (hea.trans h0)
          simp [hea, heb, hab, ih]
      · by_cases heb : e.1 = b
        · by_cases hab : a = b
          · exact absurd (heb.trans hab.symm) hea
          · have hba : ¬ (b = a) := fun h0 => hab h0.symm
            simp [hea, heb, hab, hba]
        · simp [hea, heb, ih]

theorem alookup_dset_map {α : Type} (l : List (String × α)) (a : String)
    (val : α) (k : String) (hne : a ≠ k) :
    alookup (l.map fun e => if e.1 = a then (a, val) else e) k = alookup l k := by
  induction l with
  | nil => rfl
  | cons e t ih =>
      simp only [List.map_cons, alookup_cons]
      by_cases hea : e.1 = a
      · rw [if_pos hea]
        have h1 : ¬ ((a, val).1 = k) := hne
        have h2 : ¬ (e.1 = k) := fun h0 => hne (by rw [← hea, h0])
        rw [if_neg h1, if_neg h2]
        exact ih
      · rw [if_neg hea]
        by_cases hek : e.1 = k <;> simp [hek, ih]

theorem alookup_append_single {α : Type} (l : List (String × α)) (a : String)
    (val : α) (k : String) (hne : a ≠ k) :
    alookup (l ++ [(a, val)]) k = alookup l k := by
  induction l with
  | nil =>
      rw [List.nil_append, alookup_cons, if_neg hne]
  | cons e t ih =>
      rw [List.cons_append, alookup_cons, alookup_cons]
      by_cases hek : e.1 = k
      · rw [if_pos hek, if_pos hek]
      · rw [if_neg hek, if_neg hek]
        exact ih

theorem alookup_dset_ne {α : Type} (l : List (String × α)) (a : String)
    (val : α) (k : String) (hne : a ≠ k) :
    alookup (dset l a val) k = alookup l k := by
  unfold dset
  by_cases hmem : a ∈ l.map Prod.fst
  · rw [if_pos hmem]
    exact alookup_dset_map l a val k hne
  · rw [if_neg hmem]
    exact alookup_append_single l a val k hne

theorem alookup_applyKwargs (v : ViewRec) (kwargs : List (String × Val))
    (k : String) (hk : k ∉ allowedKeys) :
    alookup (applyKwargs v kwargs) k = alookup v k := by
  unfold applyKwargs
  induction kwargs generalizing v with
  | nil => rfl
  | cons kv t ih =>
      rw [List.foldl_cons]
      by_cases ha : kv.1 ∈ allowedKeys
      · rw [if_pos ha, ih (dset v kv.1 kv.2)]
        exact alookup_dset_ne v kv.1 kv.2 k (fun h0 => hk (h0 ▸ ha))
      · rw [if_neg ha]
        exact ih v

/-- C3 (amended): when the layouts-file write fails, the in-memory layout
store nevertheless keeps the attempted change — it equals the store a
successful save would have produced — and a blocking save error is surfaced
to the caller. -/
theorem c3_write_failure_keeps_change (windows : List (String × Window))
    (layouts : LayoutStoreT) (nm d : String) (ow : Bool) (sw sh : Int)
    (hvis : windows.filter (fun p => p.2.visible) ≠ [])
    (how : nm ∈ layouts.map Prod.fst → ow = true) :
    (save_current_layout windows layouts true nm d ow sw sh false).1
      = (save_current_layout windows layouts true nm d ow sw sh true).1 ∧
    (save_current_layout windows layouts true nm d ow sw sh false).2
      = SaveOutcome.saveError ∧
    (save_current_layout windows layouts true nm d ow sw sh true).2
      = SaveOutcome.saved := by
  have hcond : ¬ (nm ∈ layouts.map Prod.fst ∧ ow = false) := by
    rintro ⟨hmem, hfalse⟩
    rw [how hmem] at hfalse
    cases hfalse
  refine ⟨?_, ?_, ?_⟩ <;> simp [save_current_layout, hvis, hcond] <;>
    simp only [if_neg hcond]

/-- C3 witness: one visible window saved under the fresh name "Ops" with a
failing write: the store keeps the new layout (it equals the successful-save
store) and the error outcome is surfaced. -/
theorem c3_write_failure_keeps_change_witness :
    [("w1", Window.mk true ⟨0, 0, 960, 540⟩)].filter (fun p => p.2.visible) ≠ [] ∧
    ((save_current_layout [("w1", Window.mk true ⟨0, 0, 960, 540⟩)] [] true "Ops" ""
        false 1920 1080 false).1
      = (save_current_layout [("w1", Window.mk true ⟨0, 0, 960, 540⟩)] [] true "Ops" ""
          false 1920 1080 true).1 ∧
     (save_current_layout [("w1", Window.mk true ⟨0, 0, 960, 540⟩)] [] true "Ops" ""
        false 1920 1080 false).2 = SaveOutcome.saveError ∧
     (save_current_layout [("w1", Window.mk true ⟨0, 0, 960, 540⟩)] [] true "Ops" ""
        false 1920 1080 true).2 = SaveOutcome.saved) :=
  ⟨by decide,
   c3_write_failure_keeps_change [("w1", Window.mk true ⟨0, 0, 960, 540⟩)] []
     "Ops" "" false 1920 1080 (by decide) (by decide)⟩

/-- C3 counterexample: the claim that a failed write leaves the in-memory
store unchanged is false — with one visible window, the fresh name "Ops", an
empty store and a failing write, the store afterwards is nonempty (it holds
the attempted layout) while the error is surfaced. -/
theorem c3_store_changed_counterexample :
    (save_current_layout [("w1", Window.mk true ⟨0, 0, 960, 540⟩)] [] true "Ops" ""
        false 1920 1080 false).1 ≠ ([] : LayoutStoreT) ∧
    (save_current_layout [("w1", Window.mk true ⟨0, 0, 960, 540⟩)] [] true "Ops" ""
        false 1920 1080 false).2 = SaveOutcome.saveError := by
  exact ⟨by decide, by decide⟩

/-- C8: with no visible windows, the save-view operation is rejected before
any dialog or persistence step: whatever the dialog outcome, save type, name,
overwrite answer or write result, both in-memory stores come back unchanged,
no file write happens, and the caller is told no windows were available. -/
theorem c8_empty_save_rejected (windows : List (String × Window))
    (views : ViewStoreT) (layouts : LayoutStoreT) (acc : Bool) (kind : SaveKind)
    (nm d : String) (ow : Bool) (sw sh : Int) (wOk : Bool)
    (hvis : windows.filter (fun p => p.2.visible) = []) :
    save_current_view windows views layouts acc kind nm d ow sw sh wOk
      = (views, layouts, false, SaveOutcome.noWindows) := by
  simp [save_current_view, hvis]

/-- C8 witness: a registry holding only a hidden window is rejected with
`noWindows` and unchanged stores. -/
theorem c8_empty_save_rejected_witness :
    [("w1", Window.mk false ⟨0, 0, 1, 1⟩)].filter (fun p => p.2.visible) = [] ∧
    save_current_view [("w1", Window.mk false ⟨0, 0, 1, 1⟩)] [] [] true
        SaveKind.view "N" "D" true 1920 1080 true
      = ([], [], false, SaveOutcome.noWindows) :=
  ⟨by decide,
   c8_empty_save_rejected [("w1", Window.mk false ⟨0, 0, 1, 1⟩)] [] [] true
     SaveKind.view "N" "D" true 1920 1080 true (by decide)⟩

/-- C9 (amended): a configuration load error is absorbed: a missing or
malformed windows/layouts file resets both controller stores to empty, while
a missing or malformed views file resets the view store to the three built-in
default views (which are also written back to disk) — not to empty — and the
application continues in all cases. -/
theorem c9_load_errors (wp : Option (List WindowConfig))
    (lp : Option LayoutStoreT) (p2 : Option ViewStoreT)
    (h : wp = none ∨ lp = none) :
    load_configs wp lp = ([], []) ∧
    load_views false p2 = (defaultViews, true) ∧
    load_views true none = (defaultViews, true) ∧
    defaultViews ≠ [] := by
  refine ⟨?_, rfl, rfl, by decide⟩
  rcases h with h | h
  · subst h
    cases lp <;> rfl
  · subst h
    cases wp <;> rfl

/-- C9 witness: both files missing: the controller stores are reset empty,
and a views load error yields the (nonempty) defaults. -/
theorem c9_load_errors_witness :
    ((none : Option (List WindowConfig)) = none ∨
      (none : Option LayoutStoreT) = none) ∧
    (load_configs none none = ([], []) ∧
     load_views false none = (defaultViews, true) ∧
     load_views true none = (defaultViews, true) ∧
     defaultViews ≠ []) :=
  ⟨Or.inl rfl, c9_load_errors none none none (Or.inl rfl)⟩

/-- C9 counterexample: the claim that every load error resets the
corresponding store to empty fails for the views store: a malformed views
file yields the three default views (and writes them back), not an empty
store. -/
theorem c9_views_not_reset_counterexample :
    (load_views true none).1 ≠ [] ∧ ((load_views true none).1).length = 3 ∧
    (load_views true none).2 = true := by
  exact ⟨by decide, by decide, by decide⟩

/-- C10: `create_view` on an id already in the store returns `False` and
leaves the store unchanged with no file write; `update_view` leaves every
other view untouched and, on the targeted view, leaves every key outside
name/description/layout/windows exactly as it was — a supplied key outside
that list is ignored. -/
theorem c10_create_update_view (views : ViewStoreT) (view_id : String)
    (nm d l : String) (w : List WinDef) (kwargs : List (String × Val))
    (id2 k : String)
    (hex : view_id ∈ views.map Prod.fst)
    (hid2 : id2 ≠ view_id)
    (hk : k ∉ allowedKeys) :
    create_view views view_id nm d l w = (views, false, false) ∧
    alookup (update_view views view_id kwargs).1 id2 = alookup views id2 ∧
    viewGet (update_view views view_id kwargs).1 view_id k
      = viewGet views view_id k := by
  refine ⟨?_, ?_, ?_⟩
  · unfold create_view
    rw [if_pos hex]
  · unfold update_view
    rw [if_pos hex]
    show alookup (views.map fun e =>
        if e.1 = view_id then (e.1, applyKwargs e.2 kwargs) else e) id2
      = alookup views id2
    rw [alookup_map_edit views view_id id2 (fun v => applyKwargs v kwargs)]
    rw [if_neg (fun h0 => hid2 h0.symm)]
  · unfold viewGet update_view
    rw [if_pos hex]
    show (alookup (views.map fun e =>
        if e.1 = view_id then (e.1, applyKwargs e.2 kwargs) else e) view_id).bind
          (fun v => alookup v k)
      = (alookup views view_id).bind fun v => alookup v k
    rw [alookup_map_edit views view_id view_id (fun v => applyKwargs v kwargs),
      if_pos rfl]
    cases alookup views view_id with
    | none => rfl
    | some v =>
        show some (applyKwargs v kwargs) >>= (fun v => alookup v k)
          = some v >>= fun v => alookup v k
        simp only [Option.bind_eq_bind, Option.some_bind]
        exact alookup_applyKwargs v kwargs k hk

/-- C10 witness: a store with one view "v" holding an extra key: creating "v"
again changes nothing and writes nothing; updating "v" with kwargs touching
"extra" leaves other ids and the key "extra" unchanged. -/
theorem c10_create_update_view_witness :
    "v" ∈ [("v", [("name", Val.str "V"), ("extra", Val.num 7)])].map Prod.fst ∧
    (create_view [("v", [("name", Val.str "V"), ("extra", Val.num 7)])] "v"
        "N" "D" "L" []
      = ([("v", [("name", Val.str "V"), ("extra", Val.num 7)])], false, false) ∧
     alookup (update_view [("v", [("name", Val.str "V"), ("extra", Val.num 7)])]
         "v" [("extra", Val.num 9), ("name", Val.str "W")]).1 "other"
       = alookup [("v", [("name", Val.str "V"), ("extra", Val.num 7)])] "other" ∧
     viewGet (update_view [("v", [("name", Val.str "V"), ("extra", Val.num 7)])]
         "v" [("extra", Val.num 9), ("name", Val.str "W")]).1 "v" "extra"
       = viewGet [("v", [("name", Val.str "V"), ("extra", Val.num 7)])] "v" "extra") :=
  ⟨by decide,
   c10_create_update_view [("v", [("name", Val.str "V"), ("extra", Val.num 7)])]
     "v" "N" "D" "L" [] [("extra", Val.num 9), ("name", Val.str "W")] "other"
     "extra" (by decide) (by decide) (by decide)⟩

end Affichage
